import Mathlib

/-!
Shallow embedding of the grid-trading engine in `grid_trader.py`
(`OrderManager`, `GridTrader`) over exact rationals.

Conventions of the embedding:
* Python `float` values are idealised as `ℚ`; Python `int` as `ℤ`.
* Python `round(x, n)` rounds half to even (banker's rounding); we model it
  with `roundHalfEven` at the requested number of decimals.
* `datetime.now()` is modelled by an explicit `now : ℕ` argument threaded
  into the operations that read the clock.
* A Python value that may be `None` is an `Option`; Python truthiness of a
  float (`if filled_price and filled_amount`) is `v ≠ 0` on the payload.
* Code that can raise returns `Except String`; the only exception reachable
  in ladder construction is the `ZeroDivisionError` from dividing by
  `grid_number = 0`.
-/

/-- Round a rational to the nearest integer, ties to even
(the rounding rule of Python's built-in `round`).
Stated on `Rat.floor` so that it evaluates by kernel reduction. -/
def roundHalfEven (q : ℚ) : ℤ :=
  let f := q.floor
  let frac := q - (f : ℚ)
  if frac < 1/2 then f
  else if 1/2 < frac then f + 1
  else if f % 2 = 0 then f else f + 1

/-- Python `round(x, 2)`. -/
def round2 (q : ℚ) : ℚ := (roundHalfEven (q * 100) : ℚ) / 100

/-- Python `round(x, 3)`. -/
def round3 (q : ℚ) : ℚ := (roundHalfEven (q * 1000) : ℚ) / 1000

/-- Python `int(x)`: truncation toward zero. -/
def pyInt (q : ℚ) : ℤ := if 0 ≤ q then q.floor else -(-q).floor

/-- `GRID_TYPE` configuration value. -/
inductive GridType where
  | arithmetic
  | geometric
deriving DecidableEq, Repr

/-- The configuration fields `GridTrader.__init__` loads from the
environment (the ones the ladder, amount, risk and rebalancing logic read). -/
structure Config where
  upper_price : ℚ
  lower_price : ℚ
  grid_number : ℤ
  investment : ℚ
  grid_type : GridType
  min_order_size : ℚ
  stop_loss_price : ℚ
  take_profit_price : ℚ
deriving DecidableEq, Repr

/-- `GridTrader.calculate_grid_prices`.

Arithmetic branch: `step = (upper - lower) / grid_number`, price `i` is
`round(lower + step*i, 2)` for `i in range(grid_number + 1)`; with
`grid_number = 0` the division raises `ZeroDivisionError` (the engine does
not start).  Geometric branch: the code computes
`ratio = (upper/lower) ** (1.0/grid_number)`, an irrational real in
general; the embedding takes the ratio as the argument `ratio` (theorems
about the geometric branch characterise it by `ratio ^ grid_number =
upper/lower`), and `1.0/grid_number` likewise raises when
`grid_number = 0`.  No parameter validation of any kind is performed. -/
def calculate_grid_prices (cfg : Config) (ratio : ℚ) : Except String (List ℚ) :=
  match cfg.grid_type with
  | GridType.arithmetic =>
      if cfg.grid_number = 0 then Except.error "ZeroDivisionError" else
      let step := (cfg.upper_price - cfg.lower_price) / (cfg.grid_number : ℚ)
      Except.ok ((List.range (cfg.grid_number + 1).toNat).map
        (fun i : ℕ => round2 (cfg.lower_price + step * (i : ℚ))))
  | GridType.geometric =>
      if cfg.grid_number = 0 then Except.error "ZeroDivisionError" else
      Except.ok ((List.range (cfg.grid_number + 1).toNat).map
        (fun i : ℕ => round2 (cfg.lower_price * ratio ^ i)))

/-- `GridTrader.get_order_amount`. -/
def get_order_amount (cfg : Config) (price : ℚ) : ℚ :=
  let grid_investment := cfg.investment / (cfg.grid_number : ℚ)
  let amount := grid_investment / price
  max (round3 amount) cfg.min_order_size

/-- The `OrderInfo` dataclass.  `side` is `"bid"` or `"ask"`, `status` is
`"open"`, `"closed"` or `"cancelled"`; both are plain strings in the code. -/
structure OrderInfo where
  order_id : String
  symbol : String
  side : String
  price : ℚ
  amount : ℚ
  status : String
  created_at : ℕ
  closed_at : Option ℕ := none
  filled_price : Option ℚ := none
  filled_amount : Option ℚ := none
  profit : Option ℚ := none
deriving DecidableEq, Repr

/-- Python truthiness of an optional float argument
(`None` and `0.0` are falsy). -/
def truthy : Option ℚ → Bool
  | none => false
  | some v => v ≠ 0

/-- The body of `OrderManager.update_order` acting on one ledger entry:
status is overwritten unconditionally; a terminal status stamps
`closed_at` with the current time; filled data is copied (and profit
computed for `'ask'` orders) only when both arguments are truthy. -/
def update_order_info (o : OrderInfo) (status : String) (now : ℕ)
    (filled_price filled_amount : Option ℚ) : OrderInfo :=
  let o1 := { o with status := status }
  let o2 := if status = "closed" ∨ status = "cancelled"
            then { o1 with closed_at := some now } else o1
  match filled_price, filled_amount with
  | some fp, some fa =>
      if fp ≠ 0 ∧ fa ≠ 0 then
        let o3 := { o2 with filled_price := some fp, filled_amount := some fa }
        if o3.side = "ask" then
          { o3 with profit := some ((fp - o3.price) * fa) }
        else o3
      else o2
  | _, _ => o2

/-- `OrderManager.orders`: a dict keyed by order id, as an association list. -/
abbrev OrderManager := List (String × OrderInfo)

/-- `OrderManager.update_order`: a no-op on an unknown id, otherwise
rewrites the entry with `update_order_info`. -/
def update_order (m : OrderManager) (order_id status : String) (now : ℕ)
    (filled_price filled_amount : Option ℚ) : OrderManager :=
  List.map (fun kv =>
    if kv.1 = order_id
    then (kv.1, update_order_info kv.2 status now filled_price filled_amount)
    else kv) m

/-- `OrderManager.get_order` (`dict.get`). -/
def get_order (m : OrderManager) (order_id : String) : Option OrderInfo :=
  List.lookup order_id m

/-- The request payload `GridTrader.place_order` sends to
`exchange.create_order` when the placement rule passes. -/
structure OrderRequest where
  symbol : String
  side : String
  type : String
  amount : ℚ
  price : ℚ
  post_only : Bool
  time_in_force : String
deriving DecidableEq, Repr

/-- The decision core of `GridTrader.place_order`, as a function of the
current price returned by the ticker fetch: a buy (`'bid'`) at a price at
or above the current price, or a sell (any other side) at or below it, is
skipped (`return None`, no `create_order` call); otherwise the limit-order
request is issued. -/
def place_order_request (symbol side : String) (amount price current_price : ℚ) :
    Option OrderRequest :=
  if side = "bid" then
    if current_price ≤ price then none
    else some ⟨symbol, "Bid", "limit", amount, price, true, "GTC"⟩
  else
    if price ≤ current_price then none
    else some ⟨symbol, "Ask", "limit", amount, price, true, "GTC"⟩

/-- An order record as returned by `exchange.fetch_open_orders`: the fields
`check_and_adjust_orders` reads.  `average` and `filled` model
`order.get('average', 0)` / `order.get('filled', 0)`, absent keys as
`none`. -/
structure ExchOrder where
  id : String
  side : String
  status : String
  average : Option ℚ := none
  filled : Option ℚ := none
deriving DecidableEq, Repr

/-- Result of one `GridTrader.check_and_adjust_orders` pass:
the reconciled ledger, whether the risk bound was breached (cancel-all
issued, loop told to stop), and which re-lay branch fired
(`place_grid_orders` call from the zero-balance buy branch or from the
positive-balance sell branch). -/
structure CheckResult where
  manager : OrderManager
  riskBreached : Bool
  cancelAll : Bool
  relayBuy : Bool
  relaySell : Bool
  keepRunning : Bool

/-- `GridTrader.check_and_adjust_orders`, as a function of the data the
iteration fetches (current price, base-asset free balance, open orders)
and the clock.  Mirrors the source: risk check first (breach cancels all
and returns `False`); then ledger reconciliation of known orders whose
venue status is `'closed'`; then the balance-directed rebalancing
decision. -/
def check_and_adjust_orders (cfg : Config) (grid_prices : List ℚ)
    (m : OrderManager) (current_price base_balance : ℚ)
    (open_orders : List ExchOrder) (now : ℕ) : CheckResult :=
  if current_price ≤ cfg.stop_loss_price ∨ cfg.take_profit_price ≤ current_price then
    ⟨m, true, true, false, false, false⟩
  else
    let m2 := open_orders.foldl (fun acc o =>
      if (get_order acc o.id).isSome ∧ o.status = "closed" then
        update_order acc o.id "closed" now
          (some (o.average.getD 0)) (some (o.filled.getD 0))
      else acc) m
    if base_balance = 0 then
      let possible_buy_orders := (grid_prices.filter (fun p => p < current_price)).length
      let buy_orders := open_orders.filter (fun o => o.side = "Bid")
      ⟨m2, false, false, decide (buy_orders.length < possible_buy_orders), false, true⟩
    else
      let fee_rate : ℚ := 3/1000
      let available_balance := base_balance * (1 - fee_rate)
      let possible_sell_orders := (grid_prices.filter (fun p => current_price < p)).length
      let sell_orders := open_orders.filter (fun o => o.side = "Ask")
      let grid_amount := get_order_amount cfg current_price
      let max_possible_sell_orders := pyInt (available_balance / grid_amount)
      let actual_possible_sell_orders :=
        min (possible_sell_orders : ℤ) max_possible_sell_orders
      ⟨m2, false, false, false,
        decide ((sell_orders.length : ℤ) < actual_possible_sell_orders), true⟩

deriving instance DecidableEq for Except

/-- One `update_order` call directed at a fixed order: the status, the
clock reading, and the optional fill data the caller supplies. -/
structure UpdateCall where
  status : String
  now : ℕ
  filled_price : Option ℚ := none
  filled_amount : Option ℚ := none
deriving DecidableEq, Repr

/-- Fold a sequence of `update_order` calls over one ledger entry. -/
def applyUpdates (o : OrderInfo) (us : List UpdateCall) : OrderInfo :=
  us.foldl (fun acc u =>
    update_order_info acc u.status u.now u.filled_price u.filled_amount) o

/-! ### Concrete fixtures used by counterexamples and witnesses -/

/-- A sell order that has already reached the terminal status `"closed"`,
with its closed-at stamp set at time 1. -/
def cexOrder : OrderInfo :=
  { order_id := "o1", symbol := "SOL_USDC", side := "ask", price := 100,
    amount := 1, status := "closed", created_at := 0, closed_at := some 1 }

/-- A one-entry ledger holding `cexOrder`. -/
def cexManager : OrderManager := [("o1", cexOrder)]

/-- A sample engine configuration (all fields valid). -/
def sampleCfg : Config :=
  { upper_price := 120, lower_price := 80, grid_number := 10, investment := 1000,
    grid_type := GridType.arithmetic, min_order_size := 1/10,
    stop_loss_price := 70, take_profit_price := 130 }

/-- An inverted price range (`upper < lower`): the spec says construction
must fail, the code happily builds a descending ladder. -/
def invertedCfg : Config :=
  { upper_price := 100, lower_price := 200, grid_number := 2, investment := 1000,
    grid_type := GridType.arithmetic, min_order_size := 1/10,
    stop_loss_price := 90, take_profit_price := 220 }

/-- `grid_number = 0`: the startup division raises `ZeroDivisionError`. -/
def zeroGridCfg : Config :=
  { upper_price := 200, lower_price := 100, grid_number := 0, investment := 1000,
    grid_type := GridType.arithmetic, min_order_size := 1/10,
    stop_loss_price := 90, take_profit_price := 220 }

/-- A valid but very narrow range (100 to 100.01 over 2 grids): the
2-decimal rounding collapses adjacent ladder levels. -/
def narrowCfg : Config :=
  { upper_price := 10001/100, lower_price := 100, grid_number := 2,
    investment := 1000, grid_type := GridType.arithmetic, min_order_size := 1/10,
    stop_loss_price := 90, take_profit_price := 120 }

/-- A valid wide-range configuration whose geometric ratio is the exact
rational 2 (`2 ^ 4 = 1600/100`), usable for both spacing modes. -/
def wideCfg : Config :=
  { upper_price := 1600, lower_price := 100, grid_number := 4, investment := 1000,
    grid_type := GridType.arithmetic, min_order_size := 1/10,
    stop_loss_price := 90, take_profit_price := 2000 }

/-- A freshly added sell order (`add_order` leaves `closed_at`,
`filled_price`, `filled_amount` and `profit` at their `None` defaults). -/
def freshAskOrder : OrderInfo :=
  { order_id := "o2", symbol := "SOL_USDC", side := "ask", price := 100,
    amount := 1, status := "open", created_at := 0 }

/-! ### Helper lemmas about rounding and the floor bridge -/

theorem ratFloor_eq_intFloor (q : ℚ) : (q.floor : ℤ) = ⌊q⌋ :=
  (Rat.floor_def' q).trans Rat.floor_def.symm

/-! ### Helper lemmas about `update_order_info` and the order ledger -/

theorem update_order_info_status (o : OrderInfo) (s : String) (now : ℕ)
    (fp fa : Option ℚ) : (update_order_info o s now fp fa).status = s := by
  unfold update_order_info
  cases fp <;> cases fa <;> dsimp only <;> split_ifs <;> rfl

theorem update_order_info_side (o : OrderInfo) (s : String) (now : ℕ)
    (fp fa : Option ℚ) : (update_order_info o s now fp fa).side = o.side := by
  unfold update_order_info
  cases fp <;> cases fa <;> dsimp only <;> split_ifs <;> rfl

theorem update_order_info_price (o : OrderInfo) (s : String) (now : ℕ)
    (fp fa : Option ℚ) : (update_order_info o s now fp fa).price = o.price := by
  unfold update_order_info
  cases fp <;> cases fa <;> dsimp only <;> split_ifs <;> rfl

theorem update_order_info_closed_at_terminal (o : OrderInfo) (s : String) (now : ℕ)
    (fp fa : Option ℚ) (h : s = "closed" ∨ s = "cancelled") :
    (update_order_info o s now fp fa).closed_at = some now := by
  unfold update_order_info
  cases fp <;> cases fa <;> simp only [if_pos h] <;> split_ifs <;> rfl

theorem update_order_info_fill_frame (o : OrderInfo) (s : String) (now : ℕ)
    (fp fa : Option ℚ) (h : truthy fp = false ∨ truthy fa = false) :
    (update_order_info o s now fp fa).filled_price = o.filled_price
    ∧ (update_order_info o s now fp fa).filled_amount = o.filled_amount
    ∧ (update_order_info o s now fp fa).profit = o.profit := by
  unfold update_order_info
  cases fp <;> cases fa <;> simp [truthy] at h ⊢ <;> split_ifs <;> simp_all

theorem update_order_info_profit_of_not (o : OrderInfo) (s : String) (now : ℕ)
    (fp fa : Option ℚ) (h : ¬(o.side = "ask" ∧ truthy fp ∧ truthy fa)) :
    (update_order_info o s now fp fa).profit = o.profit := by
  unfold update_order_info
  cases fp <;> cases fa <;> simp [truthy] at h ⊢ <;> split_ifs <;> simp_all

theorem update_order_info_profit_of_fill (o : OrderInfo) (s : String) (now : ℕ)
    (p a : ℚ) (hside : o.side = "ask") (hp : p ≠ 0) (ha : a ≠ 0) :
    (update_order_info o s now (some p) (some a)).profit = some ((p - o.price) * a) := by
  unfold update_order_info
  dsimp only
  rw [if_pos ⟨hp, ha⟩]
  split_ifs <;> simp_all

theorem get_order_update_order (m : OrderManager) (oid s : String) (now : ℕ)
    (fp fa : Option ℚ) :
    get_order (update_order m oid s now fp fa) oid
      = (get_order m oid).map (fun o => update_order_info o s now fp fa) := by
  induction m with
  | nil => rfl
  | cons kv t ih =>
    obtain ⟨k, v⟩ := kv
    simp only [update_order, List.map_cons] at ih ⊢
    by_cases h : k = oid
    · dsimp only
      rw [if_pos h]
      subst h
      simp [get_order, List.lookup]
    · dsimp only
      rw [if_neg h]
      simp only [get_order, List.lookup] at ih ⊢
      rw [show (oid == k) = false from beq_eq_false_iff_ne.mpr (Ne.symm h)]
      exact ih

theorem update_order_info_closed_at_of_not_terminal (o : OrderInfo) (s : String)
    (now : ℕ) (fp fa : Option ℚ) (h : ¬(s = "closed" ∨ s = "cancelled")) :
    (update_order_info o s now fp fa).closed_at = o.closed_at := by
  unfold update_order_info
  cases fp <;> cases fa <;> simp only [if_neg h] <;> split_ifs <;> rfl

/-! ### Claims C2 and C3: terminal-status bookkeeping -/

/-- Claim C2, counterexample: the order `"o1"` is already `"closed"` with
`closed_at = some 1`, yet a second `update_order` with the same terminal
status at time 2 rewrites `closed_at` to `some 2` — the closed-at stamp is
not written exactly once. -/
theorem update_order_restamps_closed_at :
    get_order cexManager "o1" = some cexOrder
    ∧ cexOrder.status = "closed"
    ∧ (get_order (update_order cexManager "o1" "closed" 2 none none) "o1").map
        OrderInfo.closed_at ≠ some cexOrder.closed_at := by
  decide

/-- Claim C2 (amended): every `update_order` call with a terminal status
(`"closed"` or `"cancelled"`) on an order present in the ledger stamps
`closed_at` with that call's current time; a repeated terminal call
therefore overwrites the earlier stamp rather than leaving it unchanged. -/
theorem update_order_terminal_stamps_current_time (m : OrderManager)
    (oid status : String) (now : ℕ) (fp fa : Option ℚ) (o : OrderInfo)
    (hmem : get_order m oid = some o)
    (hterm : status = "closed" ∨ status = "cancelled") :
    (get_order (update_order m oid status now fp fa) oid).map OrderInfo.closed_at
      = some (some now) := by
  rw [get_order_update_order, hmem]
  simp [update_order_info_closed_at_terminal _ _ _ _ _ hterm]

/-- Witness for the amended C2 at a concrete ledger and clock time. -/
theorem update_order_terminal_stamps_current_time_witness :
    (get_order (update_order cexManager "o1" "cancelled" 5 none none) "o1").map
      OrderInfo.closed_at = some (some 5) :=
  update_order_terminal_stamps_current_time cexManager "o1" "cancelled" 5 none none
    cexOrder (by decide) (Or.inr rfl)

/-- Claim C3, counterexample: the order `"o1"` has terminal status
`"closed"`, yet a later `update_order` call with status `"open"` moves it
back to `"open"` — terminal statuses are not sticky. -/
theorem update_order_reopens_closed_order :
    get_order cexManager "o1" = some cexOrder
    ∧ cexOrder.status = "closed"
    ∧ (get_order (update_order cexManager "o1" "open" 2 none none) "o1").map
        OrderInfo.status = some "open" := by
  decide

/-- Claim C3 (amended): `update_order` applies no transition guard at all —
the status of a ledger order is overwritten with whatever status the caller
supplies, including transitions out of `"closed"`/`"cancelled"`. -/
theorem update_order_overwrites_status (m : OrderManager) (oid status : String)
    (now : ℕ) (fp fa : Option ℚ) (o : OrderInfo)
    (hmem : get_order m oid = some o) :
    (get_order (update_order m oid status now fp fa) oid).map OrderInfo.status
      = some status := by
  rw [get_order_update_order, hmem]
  simp [update_order_info_status]

/-- Witness for the amended C3 at a concrete ledger. -/
theorem update_order_overwrites_status_witness :
    (get_order (update_order cexManager "o1" "open" 2 none none) "o1").map
      OrderInfo.status = some "open" :=
  update_order_overwrites_status cexManager "o1" "open" 2 none none cexOrder
    (by decide)

/-! ### Claim C10: zero fill data is treated as absent -/

/-- Claim C10: an `update_order` call whose filled price or filled amount is
`None` or `0` leaves `filled_price`, `filled_amount` and `profit` unchanged
while still updating the status (and `closed_at` for terminal statuses). -/
theorem update_order_zero_fill_frame (m : OrderManager) (oid status : String)
    (now : ℕ) (fp fa : Option ℚ) (o : OrderInfo)
    (hmem : get_order m oid = some o)
    (hz : (fp = none ∨ fp = some 0) ∨ (fa = none ∨ fa = some 0)) :
    ∃ o', get_order (update_order m oid status now fp fa) oid = some o'
      ∧ o'.filled_price = o.filled_price
      ∧ o'.filled_amount = o.filled_amount
      ∧ o'.profit = o.profit
      ∧ o'.status = status
      ∧ o'.closed_at = (if status = "closed" ∨ status = "cancelled"
                        then some now else o.closed_at) := by
  have ht : truthy fp = false ∨ truthy fa = false := by
    rcases hz with (h | h) | (h | h) <;> simp [h, truthy]
  obtain ⟨h1, h2, h3⟩ := update_order_info_fill_frame o status now fp fa ht
  refine ⟨update_order_info o status now fp fa, ?_, h1, h2, h3,
    update_order_info_status o status now fp fa, ?_⟩
  · rw [get_order_update_order, hmem]; rfl
  · by_cases hterm : status = "closed" ∨ status = "cancelled"
    · rw [if_pos hterm, update_order_info_closed_at_terminal _ _ _ _ _ hterm]
    · rw [if_neg hterm, update_order_info_closed_at_of_not_terminal _ _ _ _ _ hterm]

/-- Witness for C10: a `"closed"` update with a zero filled price at time 7
keeps the fill fields and profit of `cexOrder` and stamps `closed_at` to 7. -/
theorem update_order_zero_fill_frame_witness :
    ∃ o', get_order (update_order cexManager "o1" "closed" 7 (some 0) (some 3)) "o1"
        = some o'
      ∧ o'.filled_price = cexOrder.filled_price
      ∧ o'.filled_amount = cexOrder.filled_amount
      ∧ o'.profit = cexOrder.profit
      ∧ o'.status = "closed"
      ∧ o'.closed_at = (if ("closed" : String) = "closed" ∨ ("closed" : String) = "cancelled"
                        then some 7 else cexOrder.closed_at) :=
  update_order_zero_fill_frame cexManager "o1" "closed" 7 (some 0) (some 3) cexOrder
    (by decide) (Or.inl (Or.inr rfl))

/-! ### Claim C5: the placement rule rejects crossing orders -/

/-- Claim C5: `place_order` refuses a buy at or above the current price and
a sell at or below it: the function returns `none` and no `create_order`
request is issued. -/
theorem place_order_rejects_crossing (symbol side : String)
    (amount price current_price : ℚ)
    (h : (side = "bid" ∧ current_price ≤ price)
       ∨ (side = "ask" ∧ price ≤ current_price)) :
    place_order_request symbol side amount price current_price = none := by
  rcases h with ⟨hs, hp⟩ | ⟨hs, hp⟩ <;> subst hs <;>
    simp [place_order_request, hp]

/-- Witness for C5: a buy at 5 against current price 4 and a sell at 3
against current price 4 are both rejected. -/
theorem place_order_rejects_crossing_witness :
    place_order_request "SOL_USDC" "bid" 1 5 4 = none
    ∧ place_order_request "SOL_USDC" "ask" 1 3 4 = none :=
  ⟨place_order_rejects_crossing _ _ _ _ _ (Or.inl ⟨rfl, by norm_num⟩),
   place_order_rejects_crossing _ _ _ _ _ (Or.inr ⟨rfl, by norm_num⟩)⟩

/-! ### Claim C8: per-level order amount -/

/-- Claim C8: for every price and valid configuration the per-level order
amount is `max(round(investment/N/price, 3), min_order_size)`, hence never
below `min_order_size`. -/
theorem get_order_amount_spec (cfg : Config) (price : ℚ)
    (hN : 1 ≤ cfg.grid_number) (hp : 0 < price) (hi : 0 < cfg.investment) :
    get_order_amount cfg price
      = max (round3 (cfg.investment / (cfg.grid_number : ℚ) / price))
          cfg.min_order_size
    ∧ cfg.min_order_size ≤ get_order_amount cfg price :=
  ⟨rfl, le_max_right _ _⟩

/-- Witness for C8 at the sample configuration and price 100. -/
theorem get_order_amount_spec_witness :
    get_order_amount sampleCfg 100
      = max (round3 (sampleCfg.investment / (sampleCfg.grid_number : ℚ) / 100))
          sampleCfg.min_order_size
    ∧ sampleCfg.min_order_size ≤ get_order_amount sampleCfg 100 :=
  get_order_amount_spec sampleCfg 100 (by decide) (by decide) (by decide)

/-! ### Claim C9: the risk guard -/

/-- Claim C9: the iteration treats a price as breached exactly when
`current_price ≤ stop_loss_price` or `current_price ≥ take_profit_price`;
on breach it cancels all open orders and tells the loop to stop
(`return False`); strictly between the bounds it is not breached. -/
theorem risk_breach_spec (cfg : Config) (grid_prices : List ℚ)
    (m : OrderManager) (current_price base_balance : ℚ)
    (open_orders : List ExchOrder) (now : ℕ) :
    ((check_and_adjust_orders cfg grid_prices m current_price base_balance
        open_orders now).riskBreached = true
      ↔ current_price ≤ cfg.stop_loss_price
        ∨ cfg.take_profit_price ≤ current_price)
    ∧ (current_price ≤ cfg.stop_loss_price
        ∨ cfg.take_profit_price ≤ current_price →
        (check_and_adjust_orders cfg grid_prices m current_price base_balance
          open_orders now).cancelAll = true
        ∧ (check_and_adjust_orders cfg grid_prices m current_price base_balance
            open_orders now).keepRunning = false)
    ∧ (cfg.stop_loss_price < current_price →
        current_price < cfg.take_profit_price →
        (check_and_adjust_orders cfg grid_prices m current_price base_balance
          open_orders now).riskBreached = false) := by
  by_cases h : current_price ≤ cfg.stop_loss_price
      ∨ cfg.take_profit_price ≤ current_price
  · refine ⟨?_, fun _ => ?_, fun h1 h2 => ?_⟩
    · simp [check_and_adjust_orders, if_pos h, h]
    · constructor <;> · unfold check_and_adjust_orders; rw [if_pos h]
    · rcases h with h | h
      · exact absurd h (not_le.mpr h1)
      · exact absurd h (not_le.mpr h2)
  · have hres : (check_and_adjust_orders cfg grid_prices m current_price
        base_balance open_orders now).riskBreached = false := by
      unfold check_and_adjust_orders
      rw [if_neg h]
      dsimp only
      split_ifs <;> rfl
    exact ⟨by simp [hres, h], fun hc => absurd hc h, fun _ _ => hres⟩

/-- Witness for C9: with the sample bounds (stop 70, take-profit 130) a
price of 130 breaches (cancel-all, stop), a price of 100 does not. -/
theorem risk_breach_spec_witness :
    (check_and_adjust_orders sampleCfg [] [] 130 0 [] 0).riskBreached = true
    ∧ (check_and_adjust_orders sampleCfg [] [] 130 0 [] 0).cancelAll = true
    ∧ (check_and_adjust_orders sampleCfg [] [] 130 0 [] 0).keepRunning = false
    ∧ (check_and_adjust_orders sampleCfg [] [] 100 0 [] 0).riskBreached = false :=
  ⟨(risk_breach_spec sampleCfg [] [] 130 0 [] 0).1.mpr (Or.inr (by norm_num [sampleCfg])),
   ((risk_breach_spec sampleCfg [] [] 130 0 [] 0).2.1 (Or.inr (by norm_num [sampleCfg]))).1,
   ((risk_breach_spec sampleCfg [] [] 130 0 [] 0).2.1 (Or.inr (by norm_num [sampleCfg]))).2,
   (risk_breach_spec sampleCfg [] [] 100 0 [] 0).2.2 (by norm_num [sampleCfg])
     (by norm_num [sampleCfg])⟩

/-! ### Claim C7: the sell-side rebalancing target -/

/-- Claim C7: in a non-breaching iteration, a zero base balance never
signals a sell-side re-lay; with a positive base balance the sell-side
re-lay fires exactly when the number of open `"Ask"` orders is below
`min(count of ladder prices above the current price,
⌊base·(1 − 0.003) / per-level amount at the current price⌋)`. -/
theorem sell_relay_target_spec (cfg : Config) (grid_prices : List ℚ)
    (m : OrderManager) (current_price base_balance : ℚ)
    (open_orders : List ExchOrder) (now : ℕ)
    (hsl : cfg.stop_loss_price < current_price)
    (htp : current_price < cfg.take_profit_price)
    (hmin : 0 < cfg.min_order_size) :
    (base_balance = 0 →
      (check_and_adjust_orders cfg grid_prices m current_price base_balance
        open_orders now).relaySell = false)
    ∧ (0 < base_balance →
        ((check_and_adjust_orders cfg grid_prices m current_price base_balance
            open_orders now).relaySell = true
          ↔ ((open_orders.filter (fun o => o.side = "Ask")).length : ℤ)
              < min ((grid_prices.filter (fun p => current_price < p)).length : ℤ)
                  ⌊(base_balance * (1 - 3/1000)) / get_order_amount cfg current_price⌋)) := by
  have hrisk : ¬(current_price ≤ cfg.stop_loss_price
      ∨ cfg.take_profit_price ≤ current_price) := by
    push_neg
    exact ⟨hsl, htp⟩
  have hamt : 0 < get_order_amount cfg current_price :=
    lt_of_lt_of_le hmin (le_max_right _ _)
  constructor
  · intro hb
    unfold check_and_adjust_orders
    rw [if_neg hrisk]
    dsimp only
    rw [if_pos hb]
  · intro hb
    have hbne : ¬(base_balance = 0) := ne_of_gt hb
    have hq : (0 : ℚ) ≤ base_balance * (1 - 3/1000) / get_order_amount cfg current_price := by
      apply div_nonneg _ (le_of_lt hamt)
      have : (0 : ℚ) ≤ 1 - 3/1000 := by norm_num
      exact mul_nonneg (le_of_lt hb) this
    have hpy : pyInt (base_balance * (1 - 3/1000) / get_order_amount cfg current_price)
        = ⌊(base_balance * (1 - 3/1000)) / get_order_amount cfg current_price⌋ := by
      unfold pyInt
      rw [if_pos hq, ratFloor_eq_intFloor]
    unfold check_and_adjust_orders
    rw [if_neg hrisk]
    dsimp only
    rw [if_neg hbne]
    dsimp only
    rw [hpy]
    simp

/-! ### Claim C1: no configuration validation at startup -/

theorem roundHalfEven_eval (q : ℚ) :
    roundHalfEven q
      = if q - ⌊q⌋ < 1/2 then ⌊q⌋
        else if 1/2 < q - ⌊q⌋ then ⌊q⌋ + 1
        else if ⌊q⌋ % 2 = 0 then ⌊q⌋ else ⌊q⌋ + 1 := by
  simp only [roundHalfEven, ratFloor_eq_intFloor]

theorem calc_arith_ok (cfg : Config) (r : ℚ)
    (h : cfg.grid_type = GridType.arithmetic) (hn : ¬(cfg.grid_number = 0)) :
    calculate_grid_prices cfg r
      = Except.ok ((List.range (cfg.grid_number + 1).toNat).map
          (fun i : ℕ => round2 (cfg.lower_price
            + (cfg.upper_price - cfg.lower_price) / (cfg.grid_number : ℚ) * (i : ℚ)))) := by
  unfold calculate_grid_prices
  rw [h]
  simp [hn]

theorem calc_geom_ok (cfg : Config) (r : ℚ)
    (h : cfg.grid_type = GridType.geometric) (hn : ¬(cfg.grid_number = 0)) :
    calculate_grid_prices cfg r
      = Except.ok ((List.range (cfg.grid_number + 1).toNat).map
          (fun i : ℕ => round2 (cfg.lower_price * r ^ i))) := by
  unfold calculate_grid_prices
  rw [h]
  simp [hn]

/-- Claim C1, counterexample: with `upper_price = 100 < lower_price = 200`
(an invalid ladder per the spec) `calculate_grid_prices` raises nothing and
returns the descending three-level ladder `[200, 150, 100]` — there is no
`ConfigError`, and initialization proceeds. -/
theorem calc_grid_accepts_inverted_range :
    invertedCfg.upper_price ≤ invertedCfg.lower_price
    ∧ invertedCfg.investment = 1000
    ∧ calculate_grid_prices invertedCfg 0 = Except.ok [200, 150, 100] := by
  refine ⟨by norm_num [invertedCfg], rfl, ?_⟩
  rw [calc_arith_ok invertedCfg 0 rfl (by norm_num [invertedCfg])]
  rw [show ((invertedCfg.grid_number + 1).toNat) = 3 from rfl,
    show List.range 3 = [0, 1, 2] from rfl]
  simp only [Except.ok.injEq, List.map_cons, List.map_nil, List.cons.injEq, and_true]
  refine ⟨?_, ?_, ?_⟩ <;>
    · rw [round2, roundHalfEven_eval]
      norm_num [invertedCfg]

/-- Claim C1 (amended): ladder construction performs no parameter
validation and no `ConfigError` exists.  In arithmetic mode the only
configuration that aborts startup is `grid_number = 0` (a
`ZeroDivisionError` from the step computation); every other configuration —
including `upper ≤ lower`, negative `grid_number`, and `investment ≤ 0` —
returns a ladder. -/
theorem calc_grid_fails_only_on_zero_grid_number (cfg : Config) (r : ℚ)
    (harith : cfg.grid_type = GridType.arithmetic) :
    (∃ e, calculate_grid_prices cfg r = Except.error e) ↔ cfg.grid_number = 0 := by
  unfold calculate_grid_prices
  rw [harith]
  by_cases hn : cfg.grid_number = 0 <;> simp [hn]

/-- Witness for the amended C1: `grid_number = 0` is rejected (the
modelled `ZeroDivisionError`). -/
theorem calc_grid_fails_only_on_zero_grid_number_witness :
    ∃ e, calculate_grid_prices zeroGridCfg 0 = Except.error e :=
  (calc_grid_fails_only_on_zero_grid_number zeroGridCfg 0 rfl).mpr rfl

/-! ### Claim C4, counterexample: rounding can collapse adjacent levels -/

/-- Claim C4, counterexample: `narrowCfg` is a valid configuration
(`lower = 100 < upper = 100.01`, `grid_number = 2 ≥ 1`), yet the computed
ladder is `[100, 100, 100.01]` — after 2-decimal rounding the first two
levels coincide, so the price list is not strictly increasing. -/
theorem grid_prices_not_strictly_increasing_narrow_range :
    narrowCfg.lower_price < narrowCfg.upper_price
    ∧ 1 ≤ narrowCfg.grid_number
    ∧ calculate_grid_prices narrowCfg 0 = Except.ok [100, 100, 10001/100]
    ∧ ¬ ([100, 100, (10001 : ℚ)/100].Chain' (· < ·)) := by
  refine ⟨by norm_num [narrowCfg], by norm_num [narrowCfg], ?_, ?_⟩
  · rw [calc_arith_ok narrowCfg 0 rfl (by norm_num [narrowCfg])]
    rw [show ((narrowCfg.grid_number + 1).toNat) = 3 from rfl,
      show List.range 3 = [0, 1, 2] from rfl]
    simp only [Except.ok.injEq, List.map_cons, List.map_nil, List.cons.injEq, and_true]
    refine ⟨?_, ?_, ?_⟩ <;>
      · rw [round2, roundHalfEven_eval]
        norm_num [narrowCfg]
  · norm_num [List.chain'_cons]

/-! ### Claim C6: profit bookkeeping across update sequences -/

theorem truthy_iff (x : Option ℚ) : truthy x = true ↔ ∃ v, x = some v ∧ v ≠ 0 := by
  cases x <;> simp [truthy]

theorem applyUpdates_cons (o : OrderInfo) (u : UpdateCall) (us : List UpdateCall) :
    applyUpdates o (u :: us)
      = applyUpdates
          (update_order_info o u.status u.now u.filled_price u.filled_amount) us :=
  rfl

theorem applyUpdates_side (o : OrderInfo) (us : List UpdateCall) :
    (applyUpdates o us).side = o.side := by
  induction us generalizing o with
  | nil => rfl
  | cons u us ih => rw [applyUpdates_cons, ih, update_order_info_side]

theorem applyUpdates_price (o : OrderInfo) (us : List UpdateCall) :
    (applyUpdates o us).price = o.price := by
  induction us generalizing o with
  | nil => rfl
  | cons u us ih => rw [applyUpdates_cons, ih, update_order_info_price]

theorem applyUpdates_profit_of_side_ne (o : OrderInfo) (us : List UpdateCall)
    (hside : ¬(o.side = "ask")) : (applyUpdates o us).profit = o.profit := by
  induction us generalizing o with
  | nil => rfl
  | cons u us ih =>
    rw [applyUpdates_cons,
      ih _ (by rw [update_order_info_side]; exact hside),
      update_order_info_profit_of_not]
    exact fun hc => hside hc.1

theorem applyUpdates_profit_ne_none (o : OrderInfo) (us : List UpdateCall)
    (h : o.profit ≠ none) : (applyUpdates o us).profit ≠ none := by
  induction us generalizing o with
  | nil => exact h
  | cons u us ih =>
    rw [applyUpdates_cons]
    apply ih
    by_cases hc : o.side = "ask" ∧ truthy u.filled_price ∧ truthy u.filled_amount
    · obtain ⟨p, hp, hp0⟩ := (truthy_iff _).mp hc.2.1
      obtain ⟨a, ha, ha0⟩ := (truthy_iff _).mp hc.2.2
      rw [hp, ha, update_order_info_profit_of_fill o _ _ p a hc.1 hp0 ha0]
      simp
    · rw [update_order_info_profit_of_not _ _ _ _ _ hc]
      exact h

theorem applyUpdates_profit_cases (o : OrderInfo) (us : List UpdateCall) :
    (applyUpdates o us).profit = o.profit
    ∨ (o.side = "ask" ∧ ∃ u ∈ us, ∃ p a,
        u.filled_price = some p ∧ u.filled_amount = some a ∧ p ≠ 0 ∧ a ≠ 0
        ∧ (applyUpdates o us).profit = some ((p - o.price) * a)) := by
  induction us generalizing o with
  | nil => exact Or.inl rfl
  | cons u us ih =>
    rw [applyUpdates_cons]
    set o1 := update_order_info o u.status u.now u.filled_price u.filled_amount with ho1
    have hside1 : o1.side = o.side := update_order_info_side _ _ _ _ _
    have hprice1 : o1.price = o.price := update_order_info_price _ _ _ _ _
    rcases ih o1 with hleft | ⟨hask, u', hu', p, a, hp, ha, hp0, ha0, hval⟩
    · by_cases hc : o.side = "ask" ∧ truthy u.filled_price ∧ truthy u.filled_amount
      · obtain ⟨p, hp, hp0⟩ := (truthy_iff _).mp hc.2.1
        obtain ⟨a, ha, ha0⟩ := (truthy_iff _).mp hc.2.2
        refine Or.inr ⟨hc.1, u, List.mem_cons_self u us, p, a, hp, ha, hp0, ha0, ?_⟩
        rw [hleft, ho1, hp, ha,
          update_order_info_profit_of_fill o _ _ p a hc.1 hp0 ha0]
      · rw [hleft, ho1, update_order_info_profit_of_not _ _ _ _ _ hc]
        exact Or.inl rfl
    · refine Or.inr ⟨hside1 ▸ hask, u', List.mem_cons_of_mem u hu', p, a, hp, ha,
        hp0, ha0, ?_⟩
      rw [hval, hprice1]

theorem applyUpdates_profit_hit (o : OrderInfo) (us : List UpdateCall)
    (hside : o.side = "ask")
    (h : ∃ u ∈ us, truthy u.filled_price ∧ truthy u.filled_amount) :
    (applyUpdates o us).profit ≠ none := by
  induction us generalizing o with
  | nil => simp at h
  | cons u us ih =>
    rw [applyUpdates_cons]
    rcases h with ⟨u', hu', ht⟩
    rcases List.mem_cons.mp hu' with rfl | hmem
    · obtain ⟨p, hp, hp0⟩ := (truthy_iff _).mp ht.1
      obtain ⟨a, ha, ha0⟩ := (truthy_iff _).mp ht.2
      apply applyUpdates_profit_ne_none
      rw [hp, ha, update_order_info_profit_of_fill o _ _ p a hside hp0 ha0]
      simp
    · exact ih _ (by rw [update_order_info_side]; exact hside) ⟨u', hmem, ht⟩

/-- Claim C6: starting from a freshly added order (profit `None`), after any
sequence of `update_order` calls the profit field is populated iff the
order's side is `"ask"` and some call supplied both a truthy filled price
and a truthy filled amount; a populated profit equals
`(filled_price − order_price) × filled_amount` for such a call; a
`"bid"`-side order never gets a profit. -/
theorem profit_iff_ask_with_truthy_fill (o : OrderInfo) (us : List UpdateCall)
    (hfresh : o.profit = none) :
    ((applyUpdates o us).profit ≠ none
      ↔ o.side = "ask"
        ∧ ∃ u ∈ us, truthy u.filled_price ∧ truthy u.filled_amount)
    ∧ (∀ v, (applyUpdates o us).profit = some v →
        ∃ u ∈ us, ∃ p a, u.filled_price = some p ∧ u.filled_amount = some a
          ∧ p ≠ 0 ∧ a ≠ 0 ∧ v = (p - o.price) * a)
    ∧ (o.side = "bid" → (applyUpdates o us).profit = none) := by
  refine ⟨⟨?_, ?_⟩, ?_, ?_⟩
  · intro hne
    rcases applyUpdates_profit_cases o us with hleft | ⟨hask, u, hu, p, a, hp, ha, hp0, ha0, _⟩
    · exact absurd (hleft.trans hfresh) hne
    · exact ⟨hask, u, hu, (truthy_iff _).mpr ⟨p, hp, hp0⟩, (truthy_iff _).mpr ⟨a, ha, ha0⟩⟩
  · rintro ⟨hside, h⟩
    exact applyUpdates_profit_hit o us hside h
  · intro v hv
    rcases applyUpdates_profit_cases o us with hleft | ⟨_, u, hu, p, a, hp, ha, hp0, ha0, hval⟩
    · rw [hleft, hfresh] at hv
      exact absurd hv (by simp)
    · rw [hv] at hval
      exact ⟨u, hu, p, a, hp, ha, hp0, ha0, Option.some_injective _ hval⟩
  · intro hbid
    rw [applyUpdates_profit_of_side_ne o us (by rw [hbid]; decide), hfresh]

/-- Witness for C6: one closing fill on a fresh sell order at price 100,
filled at 110 for amount 2. -/
theorem profit_iff_ask_with_truthy_fill_witness :
    ((applyUpdates freshAskOrder [⟨"closed", 3, some 110, some 2⟩]).profit ≠ none
      ↔ freshAskOrder.side = "ask"
        ∧ ∃ u ∈ [(⟨"closed", 3, some 110, some 2⟩ : UpdateCall)],
            truthy u.filled_price ∧ truthy u.filled_amount)
    ∧ (∀ v, (applyUpdates freshAskOrder [⟨"closed", 3, some 110, some 2⟩]).profit = some v →
        ∃ u ∈ [(⟨"closed", 3, some 110, some 2⟩ : UpdateCall)], ∃ p a,
          u.filled_price = some p ∧ u.filled_amount = some a
          ∧ p ≠ 0 ∧ a ≠ 0 ∧ v = (p - freshAskOrder.price) * a)
    ∧ (freshAskOrder.side = "bid" →
        (applyUpdates freshAskOrder [⟨"closed", 3, some 110, some 2⟩]).profit = none) :=
  profit_iff_ask_with_truthy_fill freshAskOrder [⟨"closed", 3, some 110, some 2⟩] rfl

/-- Witness for C7: price 100 inside the band, ladder `[90, 110, 120]`, no
open orders.  With base balance 0 no sell re-lay fires; with base balance
10 the target is `min(2, ⌊9.97⌋) = 2 > 0` open asks, so it fires. -/
theorem sell_relay_target_spec_witness :
    (check_and_adjust_orders sampleCfg [90, 110, 120] [] 100 0 [] 0).relaySell = false
    ∧ (check_and_adjust_orders sampleCfg [90, 110, 120] [] 100 10 [] 0).relaySell = true := by
  constructor
  · exact (sell_relay_target_spec sampleCfg [90, 110, 120] [] 100 0 [] 0
      (by norm_num [sampleCfg]) (by norm_num [sampleCfg]) (by norm_num [sampleCfg])).1 rfl
  · apply ((sell_relay_target_spec sampleCfg [90, 110, 120] [] 100 10 [] 0
      (by norm_num [sampleCfg]) (by norm_num [sampleCfg]) (by norm_num [sampleCfg])).2
      (by norm_num)).mpr
    have hamt : get_order_amount sampleCfg 100 = 1 := by
      rw [get_order_amount]
      norm_num [sampleCfg, round3, roundHalfEven_eval, max_def]
    rw [hamt]
    have hfl : ⌊(10 * (1 - 3/1000) : ℚ) / 1⌋ = (9 : ℤ) := by norm_num
    rw [hfl]
    norm_num [List.filter]

/-! ### Claim C4: rounding lemmas for the ladder -/

theorem le_roundHalfEven (q : ℚ) : q - 1/2 ≤ (roundHalfEven q : ℚ) := by
  rw [roundHalfEven_eval]
  have h1 := Int.floor_le q
  have h2 := Int.lt_floor_add_one q
  split_ifs <;> push_cast <;> linarith

theorem roundHalfEven_le (q : ℚ) : (roundHalfEven q : ℚ) ≤ q + 1/2 := by
  rw [roundHalfEven_eval]
  have h1 := Int.floor_le q
  have h2 := Int.lt_floor_add_one q
  split_ifs <;> push_cast <;> linarith

theorem roundHalfEven_mono : Monotone roundHalfEven := by
  intro a b hab
  have hf : ⌊a⌋ ≤ ⌊b⌋ := Int.floor_le_floor hab
  rcases eq_or_lt_of_le hf with hEq | hLt
  · have hEqQ : ((⌊a⌋ : ℤ) : ℚ) = ((⌊b⌋ : ℤ) : ℚ) := by exact_mod_cast hEq
    rw [roundHalfEven_eval, roundHalfEven_eval]
    split_ifs <;> first
      | omega
      | (exfalso; linarith)
  · rw [roundHalfEven_eval, roundHalfEven_eval]
    split_ifs <;> omega

theorem roundHalfEven_lt_of_gap {a b : ℚ} (h : a + 1 < b) :
    roundHalfEven a < roundHalfEven b := by
  have h1 := roundHalfEven_le a
  have h2 := le_roundHalfEven b
  have hq : (roundHalfEven a : ℚ) < (roundHalfEven b : ℚ) := by linarith
  exact_mod_cast hq

theorem round2_mono {a b : ℚ} (hab : a ≤ b) : round2 a ≤ round2 b := by
  unfold round2
  have hm : roundHalfEven (a * 100) ≤ roundHalfEven (b * 100) :=
    roundHalfEven_mono (by linarith)
  have hmq : (roundHalfEven (a * 100) : ℚ) ≤ (roundHalfEven (b * 100) : ℚ) := by
    exact_mod_cast hm
  linarith

theorem round2_lt_of_gap {a b : ℚ} (h : a + 1/100 < b) : round2 a < round2 b := by
  unfold round2
  have hm : roundHalfEven (a * 100) < roundHalfEven (b * 100) :=
    roundHalfEven_lt_of_gap (by linarith)
  have hmq : (roundHalfEven (a * 100) : ℚ) < (roundHalfEven (b * 100) : ℚ) := by
    exact_mod_cast hm
  linarith

/-- Claim C4 (amended): for every valid config (`0 < lower < upper`,
`grid_number ≥ 1`; geometric ratio `r` characterised by `0 < r` and
`r ^ N = upper/lower`), `calculate_grid_prices` returns exactly
`grid_number + 1` prices whose first element is `lower_price` and last is
`upper_price` after 2-decimal rounding, and which are non-decreasing, in
both arithmetic and geometric modes.  They are *strictly* increasing only
under the additional condition that consecutive unrounded levels differ by
more than 0.01 (arithmetic: step `(upper−lower)/N > 0.01`; geometric:
first gap `lower·(r−1) > 0.01`); for narrower grids adjacent rounded
levels can coincide. -/
theorem grid_prices_spec (cfg : Config) (r : ℚ)
    (hl : 0 < cfg.lower_price) (hlt : cfg.lower_price < cfg.upper_price)
    (hg : 1 ≤ cfg.grid_number) (hr0 : 0 < r)
    (hrn : r ^ cfg.grid_number.toNat = cfg.upper_price / cfg.lower_price) :
    ∀ ps, calculate_grid_prices cfg r = Except.ok ps →
      (ps.length : ℤ) = cfg.grid_number + 1
      ∧ ps.head? = some (round2 cfg.lower_price)
      ∧ ps.getLast? = some (round2 cfg.upper_price)
      ∧ ps.Chain' (· ≤ ·)
      ∧ (cfg.grid_type = GridType.arithmetic →
          1/100 < (cfg.upper_price - cfg.lower_price) / (cfg.grid_number : ℚ) →
          ps.Chain' (· < ·))
      ∧ (cfg.grid_type = GridType.geometric →
          1/100 < cfg.lower_price * (r - 1) →
          ps.Chain' (· < ·)) := by
  intro ps hps
  have hn0 : ¬(cfg.grid_number = 0) := by omega
  have hton : (cfg.grid_number + 1).toNat = cfg.grid_number.toNat + 1 := by omega
  have hcast : ((cfg.grid_number.toNat : ℕ) : ℚ) = ((cfg.grid_number : ℤ) : ℚ) := by
    exact_mod_cast congrArg (Int.cast : ℤ → ℚ) (Int.toNat_of_nonneg (by omega))
  have hnQpos : (0:ℚ) < ((cfg.grid_number : ℤ) : ℚ) := by
    exact_mod_cast (by omega : (0:ℤ) < cfg.grid_number)
  cases hgt : cfg.grid_type with
  | arithmetic =>
    rw [calc_arith_ok cfg r hgt hn0, hton] at hps
    have hps' : ((List.range (cfg.grid_number.toNat + 1)).map
        (fun i : ℕ => round2 (cfg.lower_price
          + (cfg.upper_price - cfg.lower_price) / (cfg.grid_number : ℚ) * (i : ℚ))))
        = ps := by
      rw [Except.ok.injEq] at hps
      exact hps
    subst hps'
    have hstep0 : 0 ≤ (cfg.upper_price - cfg.lower_price) / (cfg.grid_number : ℚ) :=
      div_nonneg (by linarith) (le_of_lt hnQpos)
    have hmono : ∀ i j : ℕ, i ≤ j →
        round2 (cfg.lower_price
          + (cfg.upper_price - cfg.lower_price) / (cfg.grid_number : ℚ) * (i : ℚ))
        ≤ round2 (cfg.lower_price
          + (cfg.upper_price - cfg.lower_price) / (cfg.grid_number : ℚ) * (j : ℚ)) := by
      intro i j hij
      apply round2_mono
      have hq : ((i : ℕ) : ℚ) ≤ ((j : ℕ) : ℚ) := by exact_mod_cast hij
      have := mul_le_mul_of_nonneg_left hq hstep0
      linarith
    refine ⟨?_, ?_, ?_, ?_, ?_, ?_⟩
    · simp only [List.length_map, List.length_range]
      omega
    · rw [List.range_succ_eq_map]
      simp only [List.map_cons, List.head?_cons, Option.some.injEq]
      norm_num
    · rw [List.range_succ, List.map_append]
      rw [show (List.map (fun i : ℕ => round2 (cfg.lower_price
          + (cfg.upper_price - cfg.lower_price) / (cfg.grid_number : ℚ) * (i : ℚ)))
          [cfg.grid_number.toNat])
        = [round2 (cfg.lower_price
          + (cfg.upper_price - cfg.lower_price) / (cfg.grid_number : ℚ)
            * ((cfg.grid_number.toNat : ℕ) : ℚ))] from rfl]
      rw [List.getLast?_concat]
      have harg : cfg.lower_price
          + (cfg.upper_price - cfg.lower_price) / (cfg.grid_number : ℚ)
            * ((cfg.grid_number.toNat : ℕ) : ℚ) = cfg.upper_price := by
        rw [hcast]
        field_simp
      rw [harg]
    · rw [List.chain'_map, List.chain'_range_succ]
      intro m _
      exact hmono m (m+1) (by omega)
    · intro _ hgap
      rw [List.chain'_map, List.chain'_range_succ]
      intro m _
      apply round2_lt_of_gap
      have hBm : (((m+1 : ℕ)) : ℚ) = ((m : ℕ) : ℚ) + 1 := by push_cast; ring
      rw [hBm]
      have hexp : (cfg.upper_price - cfg.lower_price) / (cfg.grid_number : ℚ)
            * (((m : ℕ) : ℚ) + 1)
          = (cfg.upper_price - cfg.lower_price) / (cfg.grid_number : ℚ) * ((m : ℕ) : ℚ)
            + (cfg.upper_price - cfg.lower_price) / (cfg.grid_number : ℚ) := by ring
      rw [hexp]
      linarith
    · intro hc
      exact absurd hc (by decide)
  | geometric =>
    rw [calc_geom_ok cfg r hgt hn0, hton] at hps
    have hps' : ((List.range (cfg.grid_number.toNat + 1)).map
        (fun i : ℕ => round2 (cfg.lower_price * r ^ i))) = ps := by
      rw [Except.ok.injEq] at hps
      exact hps
    subst hps'
    have hr1 : 1 ≤ r := by
      by_contra hc
      push_neg at hc
      have h1 : r ^ cfg.grid_number.toNat < 1 :=
        pow_lt_one₀ (le_of_lt hr0) hc (by omega)
      have h2 : (1:ℚ) < cfg.upper_price / cfg.lower_price := (one_lt_div hl).mpr hlt
      rw [hrn] at h1
      linarith
    have hpow1 : ∀ m : ℕ, (1:ℚ) ≤ r ^ m := by
      intro m
      calc (1:ℚ) = r ^ 0 := (pow_zero r).symm
        _ ≤ r ^ m := pow_le_pow_right₀ hr1 (Nat.zero_le m)
    have hmono : ∀ i j : ℕ, i ≤ j →
        round2 (cfg.lower_price * r ^ i) ≤ round2 (cfg.lower_price * r ^ j) := by
      intro i j hij
      exact round2_mono
        (mul_le_mul_of_nonneg_left (pow_le_pow_right₀ hr1 hij) (le_of_lt hl))
    refine ⟨?_, ?_, ?_, ?_, ?_, ?_⟩
    · simp only [List.length_map, List.length_range]
      omega
    · rw [List.range_succ_eq_map]
      simp only [List.map_cons, List.head?_cons, Option.some.injEq]
      norm_num
    · rw [List.range_succ, List.map_append]
      rw [show (List.map (fun i : ℕ => round2 (cfg.lower_price * r ^ i))
          [cfg.grid_number.toNat])
        = [round2 (cfg.lower_price * r ^ cfg.grid_number.toNat)] from rfl]
      rw [List.getLast?_concat]
      have harg : cfg.lower_price * r ^ cfg.grid_number.toNat = cfg.upper_price := by
        rw [hrn]
        field_simp
      rw [harg]
    · rw [List.chain'_map, List.chain'_range_succ]
      intro m _
      exact hmono m (m+1) (by omega)
    · intro hc
      exact absurd hc (by decide)
    · intro _ hgap
      rw [List.chain'_map, List.chain'_range_succ]
      intro m _
      apply round2_lt_of_gap
      have key : cfg.lower_price * (r - 1) ≤ cfg.lower_price * r ^ m * (r - 1) := by
        have h1 : cfg.lower_price ≤ cfg.lower_price * r ^ m :=
          le_mul_of_one_le_right (le_of_lt hl) (hpow1 m)
        exact mul_le_mul_of_nonneg_right h1 (by linarith)
      have hexp : cfg.lower_price * r ^ (m+1)
          = cfg.lower_price * r ^ m + cfg.lower_price * r ^ m * (r - 1) := by
        rw [pow_succ]
        ring
      rw [hexp]
      linarith

/-- Witness for the amended C4: the wide arithmetic config (100 to 1600,
4 grids, exact geometric ratio 2) yields `[100, 475, 850, 1225, 1600]`. -/
theorem grid_prices_spec_witness :
    ((([100, 475, 850, 1225, 1600] : List ℚ).length : ℤ) = wideCfg.grid_number + 1)
    ∧ ([100, 475, 850, 1225, 1600] : List ℚ).head? = some (round2 wideCfg.lower_price)
    ∧ ([100, 475, 850, 1225, 1600] : List ℚ).getLast? = some (round2 wideCfg.upper_price)
    ∧ ([100, 475, 850, 1225, 1600] : List ℚ).Chain' (· ≤ ·)
    ∧ (wideCfg.grid_type = GridType.arithmetic →
        1/100 < (wideCfg.upper_price - wideCfg.lower_price) / (wideCfg.grid_number : ℚ) →
        ([100, 475, 850, 1225, 1600] : List ℚ).Chain' (· < ·))
    ∧ (wideCfg.grid_type = GridType.geometric →
        1/100 < wideCfg.lower_price * (2 - 1) →
        ([100, 475, 850, 1225, 1600] : List ℚ).Chain' (· < ·)) :=
  grid_prices_spec wideCfg 2 (by norm_num [wideCfg]) (by norm_num [wideCfg])
    (by norm_num [wideCfg]) (by norm_num)
    (by rw [show wideCfg.grid_number.toNat = 4 from rfl]; norm_num [wideCfg])
    [100, 475, 850, 1225, 1600]
    (by
      rw [calc_arith_ok wideCfg 2 rfl (by norm_num [wideCfg])]
      rw [show ((wideCfg.grid_number + 1).toNat) = 5 from rfl,
        show List.range 5 = [0, 1, 2, 3, 4] from rfl]
      simp only [Except.ok.injEq, List.map_cons, List.map_nil, List.cons.injEq, and_true]
      refine ⟨?_, ?_, ?_, ?_, ?_⟩ <;>
        · rw [round2, roundHalfEven_eval]
          norm_num [wideCfg])
